import Mathlib

/-!
# Verification of the paperscout reading-brief core

A shallow embedding, in Lean 4, of the parts of the repository that the
specification's claims are about:

* the Context Packager (`internal/context`): paragraph splitting, boilerplate
  filtering, whitespace canonicalisation, content-hash deduplication, keyword
  ranking for the Technical section, and budget clipping;
* the TUI orchestration state (`internal/tui`): per-section brief states, the
  readiness predicate for questions, and the queued-question scheduler;
* the Snapshot Store (`internal/notes/storage.go`): the persisted entry log,
  snapshot ensure/append, and section-metadata merging.

Modelling conventions:

* Go strings are Lean `String`s; Go `[]rune(s)` is `s.data : List Char`, so
  Go's rune count is `String.length` and Go's byte count `len(s)` is modelled
  by summing `Char.utf8Size`.
* Go `unicode`/`strings` case and whitespace predicates are modelled at the
  Latin-1/ASCII level (the ranges the repository's inputs exercise); the
  Unicode-table part of `unicode.IsSpace`/`IsLetter`/`ToLower` beyond those
  ranges is out of scope of the embedding.
* `crypto/sha1` digests are modelled as an injective fingerprint: the digest
  of a canonical string is the string itself.  The code only ever compares
  digests for equality, which the model preserves.
* Go maps keyed by `llm.BriefSectionKind` hold exactly the three section
  kinds, so they are modelled as total functions on a three-constructor
  enumeration (with `Option` where the code distinguishes a missing key).
* File-system state is modelled explicitly: a file is missing, stored with a
  decoded entry list, or undecodable; errors are `Except` values.
-/

/-! ## Section kinds and budgets (`internal/llm/llm.go`) -/

/-- `llm.BriefSectionKind`: the three brief sections. -/
inductive BriefSectionKind where
  | summary
  | technical
  | deepDive
deriving DecidableEq, Repr

/-- The fixed iteration order `briefSectionKinds` used by the TUI. -/
def briefSectionKinds : List BriefSectionKind :=
  [.summary, .technical, .deepDive]

/-- `llm.BriefSectionLimit`: default per-section character budgets. -/
def BriefSectionLimit (kind : BriefSectionKind) : Int :=
  match kind with
  | .summary => 60000
  | .technical => 110000
  | .deepDive => 40000

/-! ## Character-level helpers for the Context Packager -/

/-- `unicode.IsSpace` (Latin-1 range): space, tab, newline, vertical tab,
form feed, carriage return, NEL, and no-break space. -/
def isGoSpace (c : Char) : Bool :=
  c = ' ' || c = '\t' || c = '\n' || c = '\x0b' || c = '\x0c' ||
    c = '\r' || c = '\x85' || c = '\xa0'

/-- The RE2 character class `\s` = `[\t\n\f\r ]` used by the
`whitespaceSanity` regexp. -/
def isRegexSpace (c : Char) : Bool :=
  c = ' ' || c = '\t' || c = '\n' || c = '\x0c' || c = '\r'

/-- `strings.TrimSpace`: drop leading and trailing whitespace runes. -/
def goTrimSpace (s : String) : String :=
  String.mk (((s.data.dropWhile isGoSpace).reverse.dropWhile isGoSpace).reverse)

/-- `strings.ToLower`, modelled on the ASCII range. -/
def goToLower (s : String) : String :=
  String.mk (s.data.map Char.toLower)

/-- `strings.HasPrefix`. -/
def goHasPrefix (s pre : String) : Bool :=
  pre.data.isPrefixOf s.data

/-- `strings.Contains`: substring occurrence. -/
def goContains (s sub : String) : Bool :=
  s.data.tails.any (fun t => sub.data.isPrefixOf t)

/-- Go `len(s)`: the UTF-8 byte length of a string. -/
def goByteLen (s : String) : Nat :=
  s.data.foldl (fun n c => n + c.utf8Size) 0

/-- `unicode.IsLetter`, modelled on the ASCII range. -/
def isGoLetter (c : Char) : Bool :=
  c.isAlpha

/-- `runeLen`: Go `len([]rune(text))` is the rune count of the string. -/
def runeLen (text : String) : Nat :=
  text.length

/-! ## Context Packager (`internal/context`, src/unnamed/part_013) -/

/-- `context.Chunk`: a deduplicated paragraph with content-hash id and
running rune offsets. -/
structure Chunk where
  id : String
  text : String
  startOff : Nat
  endOff : Nat
deriving DecidableEq, Repr

/-- `sanitizeDocument`: normalise `\r\n` and bare `\r` to `\n` (the two
sequential `strings.ReplaceAll` passes fused into one scan, which computes
the same result: every `\r` becomes `\n`, absorbing one directly following
`\n`). -/
def sanitizeChars : List Char → List Char
  | [] => []
  | '\r' :: '\n' :: rest => '\n' :: sanitizeChars rest
  | '\r' :: rest => '\n' :: sanitizeChars rest
  | c :: rest => c :: sanitizeChars rest

/-- `sanitizeDocument` on strings. -/
def sanitizeDocument (content : String) : String :=
  String.mk (sanitizeChars content.data)

/-- Worker for `paragraphSplit.Split` (the regexp `\n{2,}`): scan characters,
counting a pending run of newlines; a run of length ≥ 2 ends the current
paragraph, a shorter run is kept verbatim. -/
def splitParagraphsAux : List Char → List Char → Nat → List String
  | [], cur, pending =>
    if 2 ≤ pending then [String.mk cur.reverse, ""]
    else [String.mk (cur.reverse ++ List.replicate pending '\n')]
  | c :: rest, cur, pending =>
    if c = '\n' then splitParagraphsAux rest cur (pending + 1)
    else if 2 ≤ pending then
      String.mk cur.reverse :: splitParagraphsAux rest [c] 0
    else
      splitParagraphsAux rest (c :: (List.replicate pending '\n' ++ cur)) 0

/-- `paragraphSplit.Split(content, -1)`: split on runs of two or more
newlines. -/
def splitParagraphs (content : String) : List String :=
  splitParagraphsAux content.data [] 0

/-- Worker for the `whitespaceSanity` replacement: collapse each maximal run
of regexp-whitespace to a single space. -/
def collapseSpacesAux : List Char → Bool → List Char
  | [], pending => if pending then [' '] else []
  | c :: rest, pending =>
    if isRegexSpace c then collapseSpacesAux rest true
    else if pending then ' ' :: c :: collapseSpacesAux rest false
    else c :: collapseSpacesAux rest false

/-- `whitespaceSanity.ReplaceAllString(text, " ")`. -/
def collapseSpaces (text : String) : String :=
  String.mk (collapseSpacesAux text.data false)

/-- `canonicalParagraph`: trim, then collapse whitespace runs to single
spaces. -/
def canonicalParagraph (text : String) : String :=
  collapseSpaces (goTrimSpace text)

/-- `hashChunk`: the SHA-1 hex digest of the canonical text, modelled as an
injective fingerprint (the canonical text itself); the program only ever
compares digests for equality. -/
def hashChunk (text : String) : String :=
  text

/-- `isBoilerplate`: headings, bibliographic lines, short single tokens and
low-letter-density fragments are dropped. -/
def isBoilerplate (paragraph : String) : Bool :=
  let lower := goToLower (goTrimSpace paragraph)
  if lower = "" then true
  else if lower = "abstract" then true
  else if lower = "introduction" then true
  else if lower = "keywords" then true
  else if goHasPrefix lower "references" then true
  else if goHasPrefix lower "acknowledg" then true
  else if goHasPrefix lower "copyright" then true
  else if goContains lower "doi" then true
  else if goContains lower "arxiv:" then true
  else if goContains lower "license" then true
  else
    let alpha := (lower.data.filter isGoLetter).length
    if goByteLen lower ≤ 12 && !goContains lower " " then true
    else if alpha * 5 < goByteLen lower then true
    else false

/-- The paragraph scan of `Builder.Build`: trim, drop empties and
boilerplate, deduplicate by content hash, and assign running rune offsets. -/
def buildChunks : List String → List String → Nat → List Chunk → List Chunk
  | [], _, _, acc => acc.reverse
  | paragraph :: rest, seen, cursor, acc =>
    let trimmed := goTrimSpace paragraph
    if trimmed = "" then buildChunks rest seen cursor acc
    else if isBoilerplate trimmed then buildChunks rest seen cursor acc
    else
      let canonical := canonicalParagraph trimmed
      let hash := hashChunk canonical
      if seen.contains hash then buildChunks rest seen cursor acc
      else
        let length := runeLen trimmed
        buildChunks rest (hash :: seen) (cursor + length)
          ({ id := hash, text := trimmed,
             startOff := cursor, endOff := cursor + length } :: acc)

/-- `scoreTechnicalChunk`: one point for each domain keyword that occurs in
the lower-cased chunk text (`strings.Contains` per keyword, so each keyword
contributes at most one point however often it occurs). -/
def technicalKeywords : List String :=
  ["method", "architecture", "model", "training", "dataset", "evaluation",
   "experiment", "loss", "optimization", "hyperparameter", "baseline",
   "ablation"]

/-- `scoreTechnicalChunk` itself. -/
def scoreTechnicalChunk (text : String) : Nat :=
  let lower := goToLower text
  technicalKeywords.countP (fun keyword => goContains lower keyword)

/-- The `scoredChunk` record of `rankChunksForTechnical`. -/
structure ScoredChunk where
  chunk : Chunk
  score : Nat
  index : Nat
deriving DecidableEq, Repr

/-- The comparator passed to `sort.SliceStable`, as a non-strict total
order: higher score first, ties by original index. -/
def scoredLE (a b : ScoredChunk) : Prop :=
  b.score < a.score ∨ (a.score = b.score ∧ a.index ≤ b.index)

instance : DecidableRel scoredLE := fun a b => by
  unfold scoredLE; infer_instance

instance : IsTotal ScoredChunk scoredLE where
  total a b := by
    unfold scoredLE
    rcases Nat.lt_trichotomy a.score b.score with h | h | h
    · exact Or.inr (Or.inl h)
    · rcases Nat.le_total a.index b.index with hi | hi
      · exact Or.inl (Or.inr ⟨h, hi⟩)
      · exact Or.inr (Or.inr ⟨h.symm, hi⟩)
    · exact Or.inl (Or.inl h)

instance : IsTrans ScoredChunk scoredLE where
  trans a b c hab hbc := by
    unfold scoredLE at *
    rcases hab with h₁ | ⟨h₁, h₁'⟩ <;> rcases hbc with h₂ | ⟨h₂, h₂'⟩
    · exact Or.inl (h₂.trans h₁)
    · exact Or.inl (h₂ ▸ h₁)
    · exact Or.inl (h₁ ▸ h₂)
    · exact Or.inr ⟨h₁.trans h₂, h₁'.trans h₂'⟩

/-- The scored view of a chunk list: each chunk paired with its original
position and its keyword score. -/
def scoredChunks (chunks : List Chunk) : List ScoredChunk :=
  (chunks.enum).map (fun p => { chunk := p.2, score := scoreTechnicalChunk p.2.text, index := p.1 })

/-- `rankChunksForTechnical`: stable sort of the scored chunks, higher score
first, ties by original index.  `sort.SliceStable` with this comparator is
modelled by insertion sort: the comparator is a total order that is
antisymmetric on the scored entries (their indices are pairwise distinct),
so every stable sort produces this same, unique ordering. -/
def rankChunksForTechnical (chunks : List Chunk) : List Chunk :=
  if chunks = [] then chunks
  else ((scoredChunks chunks).insertionSort scoredLE).map ScoredChunk.chunk

/-- The budget-clipping loop of `clipChunks`: `remaining` is the unused part
of the budget, `first` records whether this is the first chunk (Go's
`idx > 0` test), `acc` the builder contents so far. -/
def clipLoop : List Chunk → Nat → Bool → String → String
  | [], _, _, acc => acc
  | chunk :: rest, remaining, first, acc =>
    if remaining = 0 then acc
    else if !first && acc.length > 0 then
      if remaining ≤ 2 then acc
      else if remaining - 2 < chunk.text.length then
        (acc ++ "\n\n") ++ String.mk (chunk.text.data.take (remaining - 2))
      else
        clipLoop rest (remaining - 2 - chunk.text.length) false
          ((acc ++ "\n\n") ++ chunk.text)
    else
      if remaining < chunk.text.length then
        acc ++ String.mk (chunk.text.data.take remaining)
      else
        clipLoop rest (remaining - chunk.text.length) false (acc ++ chunk.text)

/-- `clipChunks`: a non-positive budget yields the empty string, otherwise
chunks are concatenated with the two-character separator `"\n\n"` while the
remaining budget allows, the first overflowing chunk being truncated to
exactly the remaining rune count. -/
def clipChunks (chunks : List Chunk) (budget : Int) : String :=
  if budget ≤ 0 then "" else clipLoop chunks budget.toNat true ""

/-- `NewBuilder`: effective budgets.  A `nil` map (`none`) or a configured
value that is not positive falls back to `BriefSectionLimit`.  (Absence of a
kind in a non-nil Go map reads as `0`, which the `> 0` guard also rejects,
so a total `Int`-valued function models the map.) -/
def newBuilderBudgets (budgets : Option (BriefSectionKind → Int)) :
    BriefSectionKind → Int :=
  fun kind =>
    match budgets with
    | some b => if b kind > 0 then b kind else BriefSectionLimit kind
    | none => BriefSectionLimit kind

/-- `context.Package`: per-section context strings plus the chunk list. -/
structure ContextPackage where
  sections : BriefSectionKind → String
  chunks : List Chunk

/-- `Builder.Build` for a builder created by `NewBuilder budgets`:
sanitise, split into paragraphs, build the deduplicated chunk list, then
clip per section kind (the Technical kind on the keyword-ranked order). -/
def buildPackage (budgets : Option (BriefSectionKind → Int)) (content : String) :
    ContextPackage :=
  let chunks := buildChunks (splitParagraphs (sanitizeDocument content)) [] 0 []
  { sections := fun kind =>
      let sectionChunks :=
        if kind = BriefSectionKind.technical then rankChunksForTechnical chunks
        else chunks
      clipChunks sectionChunks (newBuilderBudgets budgets kind)
    chunks := chunks }

/-! ## C3: keyword ranking — code (presence count) vs. spec (occurrences) -/

/-- Formalisation of the spec's wording, for comparison with the code: the
number of (case-insensitive) occurrences of `needle` in `hay`, counted as
the positions where `needle` starts. -/
def countOccurrences (needle hay : String) : Nat :=
  hay.data.tails.countP (fun t => needle.data.isPrefixOf t)

/-- Formalisation of the spec's wording: a chunk's score as the total count
of occurrences of the twelve domain terms (the code instead counts each
term at most once). -/
def specScoreTechnicalChunk (text : String) : Nat :=
  (technicalKeywords.map (fun k => countOccurrences k (goToLower text))).sum

/-- The scored view under the spec's occurrence-count score. -/
def specScoredChunks (chunks : List Chunk) : List ScoredChunk :=
  (chunks.enum).map
    (fun p => { chunk := p.2, score := specScoreTechnicalChunk p.2.text, index := p.1 })

/-- The ranking the spec's wording describes: stable sort descending by
occurrence-count score, ties by original order. -/
def specRankChunksForTechnical (chunks : List Chunk) : List Chunk :=
  if chunks = [] then chunks
  else ((specScoredChunks chunks).insertionSort scoredLE).map ScoredChunk.chunk

/-! ## Snapshot-store data types (`internal/notes`) -/

/-- `notes.BriefSectionMetadata`: per-section status details. -/
structure BriefSectionMetadata where
  kind : String
  status : String
  error : String
  durationMs : Int
deriving DecidableEq, Repr

/-- `notes.ConversationMessage` (timestamps as abstract ticks). -/
structure ConversationMessage where
  kind : String
  content : String
  timestamp : Nat
deriving DecidableEq, Repr

/-- `notes.SnapshotNote`. -/
structure SnapshotNote where
  title : String
  body : String
  kind : String
  createdAt : Nat
deriving DecidableEq, Repr

/-- `notes.BriefSnapshot`: bullet lists per kind; `none` models a `nil` Go
slice (the merge logic distinguishes `nil` from present). -/
structure BriefSnapshot where
  summary : Option (List String)
  technical : Option (List String)
  deepDive : Option (List String)
deriving DecidableEq, Repr

/-- `notes.SnapshotUpdate` with the fields `storage.go` consumes. -/
structure SnapshotUpdate where
  messages : List ConversationMessage
  notes : List SnapshotNote
  brief : Option BriefSnapshot
  sectionMetadata : List BriefSectionMetadata
deriving DecidableEq, Repr

/-! ## TUI orchestration state (src/unnamed/part_007, `internal/tui`) -/

/-- `arxiv.Paper`, restricted to the fields the modelled operations read. -/
structure Paper where
  id : String
  title : String
  fullText : String
deriving DecidableEq, Repr

/-- `briefSectionState`. -/
structure BriefSectionState where
  loading : Bool
  completed : Bool
  error : String
deriving DecidableEq, Repr

/-- The zero value of `briefSectionState`. -/
def emptyBriefSectionState : BriefSectionState :=
  { loading := false, completed := false, error := "" }

/-- `llm.ReadingBrief`: accumulated bullets per kind. -/
structure ReadingBrief where
  summary : List String
  technical : List String
  deepDive : List String
deriving DecidableEq, Repr

/-- The slice of the TUI `model` that the readiness predicate, the queued
question scheduler and the brief-section result handler read and write.
Display-only state (viewports, transcript entries, palette, anchors) and
the per-entry `qaHistory` contents are outside the model; of `qaHistory`
only the length is kept, which is all `launchQuestion`'s bounds check
reads.  `briefSections` is `none` for a nil Go map, and per-kind `none`
for a key absent from the map. -/
structure TuiModel where
  paper : Option Paper
  llmConfigured : Bool
  knowledgeBasePath : String
  briefSections : Option (BriefSectionKind → Option BriefSectionState)
  briefLoading : Bool
  brief : ReadingBrief
  queuedQuestions : List Nat
  questionLoading : Bool
  qaHistoryLen : Nat
  infoMessage : String
  errorMessage : String

/-- `briefSectionMsg`: the terminal message of one section task.  `err` is
`some text` for a failed task (the Go `error`'s text). -/
structure BriefSectionMsg where
  paperID : String
  kind : BriefSectionKind
  bullets : List String
  err : Option String
deriving DecidableEq, Repr

/-- The effect of the `tea.Cmd` a handler returns: an optional snapshot
append and an optional launched question (the index passed to
`questionAnswerJob`). -/
structure HandlerCmd where
  snapshot : Option SnapshotUpdate
  launchedQuestion : Option Nat
deriving DecidableEq, Repr

/-- `briefSectionTitle`. -/
def briefSectionTitle (kind : BriefSectionKind) : String :=
  match kind with
  | .summary => "Summary"
  | .technical => "Technical"
  | .deepDive => "Deep Dive"

/-- `model.sectionState`: zero value for a nil map or an absent key. -/
def sectionStateOf (m : TuiModel) (kind : BriefSectionKind) : BriefSectionState :=
  match m.briefSections with
  | none => emptyBriefSectionState
  | some secs => (secs kind).getD emptyBriefSectionState

/-- `model.briefReadyForQuestions`: vacuously ready without a paper, an LLM
client, or full text; otherwise every configured kind must be present in
the (non-nil) section map and be completed or carry a non-empty error. -/
def briefReadyForQuestions (m : TuiModel) : Bool :=
  match m.paper with
  | none => true
  | some paper =>
    if !m.llmConfigured then true
    else if goTrimSpace paper.fullText = "" then true
    else
      match m.briefSections with
      | none => false
      | some secs =>
        briefSectionKinds.all fun kind =>
          match secs kind with
          | none => false
          | some st => st.completed || !(st.error = "")

/-- The claim's readiness predicate, formalised from the spec's words for
comparison: every configured kind is Succeeded, Failed, or never started —
Running (`loading`) is the only blocking state. -/
def specReadyForQuestions (m : TuiModel) : Bool :=
  briefSectionKinds.all fun kind => !(sectionStateOf m kind).loading

/-- `model.ensureBriefSections`: allocate the map if nil and insert the
zero state for every missing kind. -/
def ensureBriefSections (m : TuiModel) : TuiModel :=
  match m.briefSections with
  | none => { m with briefSections := some fun _ => some emptyBriefSectionState }
  | some secs =>
    { m with briefSections := some fun k => some ((secs k).getD emptyBriefSectionState) }

/-- `m.briefSections[kind] = st` (map write; the map is always non-nil when
the code writes, since `ensureBriefSections` ran first). -/
def setSectionState (m : TuiModel) (kind : BriefSectionKind)
    (st : BriefSectionState) : TuiModel :=
  match m.briefSections with
  | none => { m with briefSections := some fun k => if k = kind then some st else none }
  | some secs =>
    { m with briefSections := some fun k => if k = kind then some st else secs k }

/-- `model.anyBriefSectionLoading`: scan the map values. -/
def anyBriefSectionLoading (m : TuiModel) : Bool :=
  match m.briefSections with
  | none => false
  | some secs =>
    briefSectionKinds.any fun kind =>
      match secs kind with
      | none => false
      | some st => st.loading

/-- `model.markBriefSectionResult`: ensure the map, clear `loading`, set
`completed`/`error` from the task outcome, write back, and recompute the
aggregate `briefLoading`; returns the written state. -/
def markBriefSectionResult (m : TuiModel) (kind : BriefSectionKind)
    (err : Option String) : TuiModel × BriefSectionState :=
  let m1 := ensureBriefSections m
  let state := sectionStateOf m1 kind
  let state1 :=
    match err with
    | some e => { state with loading := false, error := e, completed := false }
    | none => { state with loading := false, error := "", completed := true }
  let m2 := setSectionState m1 kind state1
  ({ m2 with briefLoading := anyBriefSectionLoading m2 }, state1)

/-- `model.updateBriefContent`. -/
def updateBriefContent (m : TuiModel) (kind : BriefSectionKind)
    (bullets : List String) : TuiModel :=
  match kind with
  | .summary => { m with brief := { m.brief with summary := bullets } }
  | .technical => { m with brief := { m.brief with technical := bullets } }
  | .deepDive => { m with brief := { m.brief with deepDive := bullets } }

/-- `model.enqueueQuestion`: append to the pending queue. -/
def enqueueQuestion (m : TuiModel) (index : Nat) : TuiModel :=
  { m with queuedQuestions := m.queuedQuestions ++ [index] }

/-- `model.launchQuestion`: requires a paper, an LLM client and an index
inside `qaHistory`; sets `questionLoading` and starts the answer job.  The
draft-answer shortcut (`allowDraft`) only affects display fields and the
qa entry's transcript, which are outside the model. -/
def launchQuestion (m : TuiModel) (index : Nat) (infoMessage : String) :
    TuiModel × Option Nat :=
  match m.paper with
  | none => (m, none)
  | some _ =>
    if !m.llmConfigured then (m, none)
    else if index < m.qaHistoryLen then
      ({ m with
          infoMessage :=
            if infoMessage = "" then "Answering question via LLM…" else infoMessage,
          questionLoading := true },
        some index)
    else (m, none)

/-- `model.maybeStartQueuedQuestion`: when ready, idle and the queue is
non-empty, pop the oldest queued question and launch it. -/
def maybeStartQueuedQuestion (m : TuiModel) : TuiModel × Option Nat :=
  if !(briefReadyForQuestions m) || m.questionLoading || m.queuedQuestions.isEmpty then
    (m, none)
  else
    match m.queuedQuestions with
    | [] => (m, none)
    | index :: rest =>
      launchQuestion { m with queuedQuestions := rest } index
        "Answering queued question via LLM…"

/-- `model.appendConversationSnapshotCmd`: emits an append job only with a
paper, a knowledge-base path, and at least one message or note. -/
def appendConversationSnapshotCmd (m : TuiModel) (update : SnapshotUpdate) :
    Option SnapshotUpdate :=
  match m.paper with
  | none => none
  | some _ =>
    if m.knowledgeBasePath = "" then none
    else if update.messages = [] ∧ update.notes = [] then none
    else some update

/-- Go `string(kind)`: the string tag of a section kind. -/
def briefSectionKindTag (kind : BriefSectionKind) : String :=
  match kind with
  | .summary => "summary"
  | .technical => "technical"
  | .deepDive => "deepDive"

/-- The failed-section metadata entry `handleBriefSectionResult` emits. -/
def failedSectionMetadata (kind : BriefSectionKind) (e : String) :
    BriefSectionMetadata :=
  { kind := briefSectionKindTag kind, status := "failed", error := e,
    durationMs := 0 }

/-- The completed-section metadata entry `handleBriefSectionResult` emits. -/
def completedSectionMetadata (kind : BriefSectionKind) : BriefSectionMetadata :=
  { kind := briefSectionKindTag kind, status := "completed", error := "",
    durationMs := 0 }

/-- The per-kind `notes.BriefSnapshot` carrying a success's bullets. -/
def briefSnapshotFor (kind : BriefSectionKind) (bullets : List String) :
    BriefSnapshot :=
  match kind with
  | .summary => { summary := some bullets, technical := none, deepDive := none }
  | .technical => { summary := none, technical := some bullets, deepDive := none }
  | .deepDive => { summary := none, technical := none, deepDive := some bullets }

/-- The model `handleBriefSectionResult` builds on a failed section, before
trying to release a queued question: mark the terminal state, overwrite the
kind's error with the title-prefixed text, and surface it. -/
def handleBriefFailureModel (m : TuiModel) (kind : BriefSectionKind)
    (e : String) : TuiModel :=
  let marked := markBriefSectionResult m kind (some e)
  let state1 := { marked.2 with
    error := briefSectionTitle kind ++ " section error: " ++ e }
  let m2 := setSectionState marked.1 kind state1
  { m2 with
    errorMessage := state1.error,
    infoMessage := "Press a to retry the reading brief." }

/-- The model `handleBriefSectionResult` builds on a succeeded section,
before trying to release a queued question: mark the terminal state and
store the accumulated bullets. -/
def handleBriefSuccessModel (m : TuiModel) (kind : BriefSectionKind)
    (bullets : List String) : TuiModel :=
  let marked := markBriefSectionResult m kind none
  let m2 := updateBriefContent marked.1 kind bullets
  { m2 with
    errorMessage := "",
    infoMessage :=
      if m2.briefLoading then
        briefSectionTitle kind ++ " section ready. Waiting on remaining sections…"
      else "Reading brief ready." }

/-- `model.handleBriefSectionResult`: ignore stale paper ids; record the
terminal state; on failure prefix and surface the error; on success store
the bullets; emit the snapshot update; finally try to release one queued
question. -/
def handleBriefSectionResult (m : TuiModel) (msg : BriefSectionMsg) :
    TuiModel × HandlerCmd :=
  match m.paper with
  | none => (m, { snapshot := none, launchedQuestion := none })
  | some paper =>
    if paper.id ≠ msg.paperID then
      (m, { snapshot := none, launchedQuestion := none })
    else
      match msg.err with
      | some e =>
        let m3 := handleBriefFailureModel m msg.kind e
        let snapshotCmd := appendConversationSnapshotCmd m3
          { messages := [], notes := [], brief := none,
            sectionMetadata := [failedSectionMetadata msg.kind e] }
        let started := maybeStartQueuedQuestion m3
        (started.1, { snapshot := snapshotCmd, launchedQuestion := started.2 })
      | none =>
        let m3 := handleBriefSuccessModel m msg.kind msg.bullets
        let update : SnapshotUpdate :=
          { messages := [], notes := [],
            brief :=
              if msg.bullets ≠ [] then some (briefSnapshotFor msg.kind msg.bullets)
              else none,
            sectionMetadata := [completedSectionMetadata msg.kind] }
        let snapshotCmd := appendConversationSnapshotCmd m3 update
        let started := maybeStartQueuedQuestion m3
        (started.1, { snapshot := snapshotCmd, launchedQuestion := started.2 })

/-! ## Concrete models used by the witnesses and counterexamples -/

/-- A fixture paper matching the repository's tests. -/
def samplePaper : Paper :=
  { id := "1234.56789", title := "Fixture", fullText := "content" }

/-- Empty reading-brief bullets. -/
def sampleBrief : ReadingBrief :=
  { summary := [], technical := [], deepDive := [] }

/-- Section map with two kinds completed and DeepDive never started. -/
def c4Sections : BriefSectionKind → Option BriefSectionState :=
  fun k =>
    match k with
    | .summary => some { loading := false, completed := true, error := "" }
    | .technical => some { loading := false, completed := true, error := "" }
    | .deepDive => some emptyBriefSectionState

/-- Model with a paper, a client, full text, and `c4Sections`. -/
def c4Model : TuiModel :=
  { paper := some samplePaper, llmConfigured := true, knowledgeBasePath := "",
    briefSections := some c4Sections, briefLoading := false,
    brief := sampleBrief, queuedQuestions := [], questionLoading := false,
    qaHistoryLen := 0, infoMessage := "", errorMessage := "" }

/-- Section map with every kind completed. -/
def c4AllDone : BriefSectionKind → Option BriefSectionState :=
  fun _ => some { loading := false, completed := true, error := "" }

/-- `c4Model` with every kind completed. -/
def c4ReadyModel : TuiModel :=
  { c4Model with briefSections := some c4AllDone }

/-- Section map with Summary/Technical completed and DeepDive running. -/
def c5Sections : BriefSectionKind → Option BriefSectionState :=
  fun k =>
    match k with
    | .summary => some { loading := false, completed := true, error := "" }
    | .technical => some { loading := false, completed := true, error := "" }
    | .deepDive => some { loading := true, completed := false, error := "" }

/-- Model with one queued question waiting on the running DeepDive kind. -/
def c5Model : TuiModel :=
  { paper := some samplePaper, llmConfigured := true, knowledgeBasePath := "",
    briefSections := some c5Sections, briefLoading := true,
    brief := sampleBrief, queuedQuestions := [0], questionLoading := false,
    qaHistoryLen := 1, infoMessage := "", errorMessage := "" }

/-- The terminal message of the last running section. -/
def c5Msg : BriefSectionMsg :=
  { paperID := "1234.56789", kind := .deepDive, bullets := ["Bullet"],
    err := none }

/-- Model with Summary completed and Technical running when DeepDive fails. -/
def c10Model : TuiModel :=
  { paper := some samplePaper, llmConfigured := true, knowledgeBasePath := "",
    briefSections := some c5Sections, briefLoading := true,
    brief := { summary := ["S"], technical := [], deepDive := [] },
    queuedQuestions := [], questionLoading := false, qaHistoryLen := 0,
    infoMessage := "", errorMessage := "" }

/-- A failure message for the DeepDive kind. -/
def c10Msg : BriefSectionMsg :=
  { paperID := "1234.56789", kind := .deepDive, bullets := [],
    err := some "boom" }

/-! ## Snapshot Store (`internal/notes/storage.go`) -/

/-- `notes.Note` (timestamps as abstract ticks). -/
structure NoteRec where
  paperId : String
  paperTitle : String
  title : String
  body : String
  kind : String
  createdAt : Nat
deriving DecidableEq, Repr

/-- `notes.ConversationSnapshot`.  The unused `llm` metadata field is
omitted; `capturedAt = 0` models a zero `time.Time`. -/
structure ConvSnapshot where
  entryType : String
  paperID : String
  paperTitle : String
  capturedAt : Nat
  messages : List ConversationMessage
  notes : List SnapshotNote
  brief : Option BriefSnapshot
  sectionMetadata : List BriefSectionMetadata
deriving DecidableEq, Repr

/-- One decoded record of the persisted log, discriminated by its
`entryType` tag (absent tag means note). -/
inductive LogEntry where
  | note (n : NoteRec)
  | conv (s : ConvSnapshot)
deriving DecidableEq, Repr

/-- The state of the log file: missing, decodable with the given records,
or syntactically corrupt. -/
inductive FileState where
  | missing
  | stored (entries : List LogEntry)
  | corrupt
deriving DecidableEq, Repr

/-- The error classes `loadEntries` can produce: `os.ErrNotExist` from
`os.ReadFile`, or a JSON decode failure. -/
inductive StoreError where
  | notExist
  | decodeFailure
deriving DecidableEq, Repr

/-- `loadEntries`: read and decode the whole log; a missing file is the
`ReadFile` error, a corrupt file the decode error. -/
def loadEntries (fs : FileState) : Except StoreError (List LogEntry) :=
  match fs with
  | .missing => .error .notExist
  | .stored entries => .ok entries
  | .corrupt => .error .decodeFailure

/-- `notes.Load`: all note records, in file order; `loadEntries` errors are
returned unchanged. -/
def loadNotes (fs : FileState) : Except StoreError (List NoteRec) :=
  match loadEntries fs with
  | .error e => .error e
  | .ok entries =>
    .ok (entries.filterMap fun entry =>
      match entry with
      | .note n => some n
      | .conv _ => none)

/-- `notes.LoadConversationSnapshots`: all conversation records, in file
order; `loadEntries` errors are returned unchanged. -/
def loadConversationSnapshots (fs : FileState) :
    Except StoreError (List ConvSnapshot) :=
  match loadEntries fs with
  | .error e => .error e
  | .ok entries =>
    .ok (entries.filterMap fun entry =>
      match entry with
      | .conv s => some s
      | .note _ => none)

/-- `appendEntries`: no-op on an empty batch; a missing file is treated as
an empty log; a corrupt file is an error, so nothing is written. -/
def appendEntries (fs : FileState) (newEntries : List LogEntry) : FileState :=
  if newEntries = [] then fs
  else
    match fs with
    | .missing => .stored newEntries
    | .stored entries => .stored (entries ++ newEntries)
    | .corrupt => .corrupt

/-- `notes.SaveConversationSnapshots`: tag each snapshot as a conversation
record and append. -/
def saveConversationSnapshots (fs : FileState) (snapshots : List ConvSnapshot) :
    FileState :=
  if snapshots = [] then fs
  else appendEntries fs
    (snapshots.map fun s => .conv { s with entryType := "conversation" })

/-- The empty snapshot record `ensureConversationSnapshotJob` creates. -/
def newConvSnapshot (paperID title : String) (now : Nat) : ConvSnapshot :=
  { entryType := "", paperID := paperID, paperTitle := title,
    capturedAt := now, messages := [], notes := [], brief := none,
    sectionMetadata := [] }

/-- `ensureConversationSnapshotJob`'s body (`internal/tui/commands.go`):
load all snapshots, treating a missing file as none; no-op when one with
this paper id exists; otherwise append a new empty snapshot record. -/
def ensureConversationSnapshot (path paperID title : String) (now : Nat)
    (fs : FileState) : FileState :=
  if path = "" ∨ paperID = "" then fs
  else
    match loadConversationSnapshots fs with
    | .error .notExist =>
      saveConversationSnapshots fs [newConvSnapshot paperID title now]
    | .error .decodeFailure => fs
    | .ok snapshots =>
      if snapshots.any (fun s => s.paperID = paperID) then fs
      else saveConversationSnapshots fs [newConvSnapshot paperID title now]

/-- The inner loop of `mergeSectionMetadata`: replace the first entry with
the same kind tag, or append. -/
def replaceOrAppendMeta : List BriefSectionMetadata → BriefSectionMetadata →
    List BriefSectionMetadata
  | [], u => [u]
  | x :: rest, u =>
    if x.kind = u.kind then u :: rest else x :: replaceOrAppendMeta rest u

/-- `mergeSectionMetadata`: fold the updates into the existing entries,
skipping untagged updates. -/
def mergeSectionMetadata (existing updates : List BriefSectionMetadata) :
    List BriefSectionMetadata :=
  if updates = [] then existing
  else updates.foldl
    (fun result u => if u.kind = "" then result else replaceOrAppendMeta result u)
    existing

/-- The brief-bullet merge inside `AppendConversationSnapshot`: allocate an
empty record if absent, then replace each non-nil field wholesale. -/
def mergeBriefSnapshot (snapBrief updBrief : Option BriefSnapshot) :
    Option BriefSnapshot :=
  match updBrief with
  | none => snapBrief
  | some ub =>
    let base := snapBrief.getD { summary := none, technical := none, deepDive := none }
    some
      { summary := match ub.summary with | some s => some s | none => base.summary,
        technical := match ub.technical with | some s => some s | none => base.technical,
        deepDive := match ub.deepDive with | some s => some s | none => base.deepDive }

/-- The per-snapshot merge of `AppendConversationSnapshot`: backfill title
and capture time, append messages and notes, merge brief fields and section
metadata. -/
def mergeSnapshotUpdate (s : ConvSnapshot) (paperTitle : String)
    (update : SnapshotUpdate) (now : Nat) : ConvSnapshot :=
  { s with
    entryType := "conversation",
    paperTitle := if s.paperTitle = "" then paperTitle else s.paperTitle,
    capturedAt := if s.capturedAt = 0 then now else s.capturedAt,
    messages := s.messages ++ update.messages,
    notes := s.notes ++ update.notes,
    brief := mergeBriefSnapshot s.brief update.brief,
    sectionMetadata :=
      if update.sectionMetadata = [] then s.sectionMetadata
      else mergeSectionMetadata s.sectionMetadata update.sectionMetadata }

/-- The entry scan of `AppendConversationSnapshot`: merge into the first
conversation record with this paper id (`break` after it); `none` when no
record matches. -/
def mergeIntoEntries (paperID paperTitle : String) (update : SnapshotUpdate)
    (now : Nat) : List LogEntry → Option (List LogEntry)
  | [] => none
  | .note n :: rest =>
    match mergeIntoEntries paperID paperTitle update now rest with
    | some rest2 => some (.note n :: rest2)
    | none => none
  | .conv s :: rest =>
    if s.paperID = paperID then
      some (.conv (mergeSnapshotUpdate s paperTitle update now) :: rest)
    else
      match mergeIntoEntries paperID paperTitle update now rest with
      | some rest2 => some (.conv s :: rest2)
      | none => none

/-- The fresh snapshot `AppendConversationSnapshot` creates when no record
matches. -/
def newSnapshotFromUpdate (paperID paperTitle : String)
    (update : SnapshotUpdate) (now : Nat) : ConvSnapshot :=
  { entryType := "conversation", paperID := paperID, paperTitle := paperTitle,
    capturedAt := now, messages := update.messages, notes := update.notes,
    brief := update.brief, sectionMetadata := update.sectionMetadata }

/-- `notes.AppendConversationSnapshot`: guard empty path/id and empty
updates; treat a missing file as an empty log; merge into the first
matching record or create one; write the whole log back. -/
def appendConversationSnapshot (path paperID paperTitle : String)
    (update : SnapshotUpdate) (now : Nat) (fs : FileState) : FileState :=
  if path = "" ∨ paperID = "" then fs
  else if update.messages = [] ∧ update.notes = [] ∧ update.brief = none ∧
      update.sectionMetadata = [] then fs
  else
    match loadEntries fs with
    | .error .notExist =>
      .stored [.conv (newSnapshotFromUpdate paperID paperTitle update now)]
    | .error .decodeFailure => fs
    | .ok entries =>
      match mergeIntoEntries paperID paperTitle update now entries with
      | some entries2 => .stored entries2
      | none =>
        .stored (entries ++ [.conv (newSnapshotFromUpdate paperID paperTitle update now)])

/-- Does this entry hold the conversation snapshot of the given paper? -/
def isConvFor (paperID : String) : LogEntry → Bool
  | .note _ => false
  | .conv s => s.paperID = paperID

/-- The number of conversation snapshot records for a paper id in the
persisted log (zero for a missing or corrupt file). -/
def convCount (fs : FileState) (paperID : String) : Nat :=
  match fs with
  | .stored entries => entries.countP (isConvFor paperID)
  | _ => 0

/-- The number of metadata entries with a given kind tag. -/
def countKind (metas : List BriefSectionMetadata) (k : String) : Nat :=
  metas.countP (fun meta => meta.kind = k)

/-- A snapshot update carrying only one section-metadata entry, as the
brief-section handlers emit. -/
def metaOnlyUpdate (u : BriefSectionMetadata) : SnapshotUpdate :=
  { messages := [], notes := [], brief := none, sectionMetadata := [u] }

/-- Existing completed-summary metadata entry. -/
def c8MetaSummary : BriefSectionMetadata :=
  { kind := "summary", status := "completed", error := "", durationMs := 0 }

/-- Existing completed-technical metadata entry. -/
def c8MetaTechnical : BriefSectionMetadata :=
  { kind := "technical", status := "completed", error := "", durationMs := 0 }

/-- A failed-summary update entry. -/
def c8Failed : BriefSectionMetadata :=
  { kind := "summary", status := "failed", error := "x", durationMs := 0 }

/-- A later completed-summary update entry. -/
def c8Again : BriefSectionMetadata :=
  { kind := "summary", status := "completed", error := "", durationMs := 0 }

/-- A stored snapshot with one summary and one technical entry. -/
def c8Snap : ConvSnapshot :=
  { entryType := "conversation", paperID := "1234.56789",
    paperTitle := "Fixture", capturedAt := 1, messages := [], notes := [],
    brief := none, sectionMetadata := [c8MetaSummary, c8MetaTechnical] }

/-! ## Theorems about the Context Packager -/

/-- The clipping loop never produces more runes than the accumulator already
holds plus the remaining budget. -/
theorem clipLoop_length_le (chunks : List Chunk) :
    ∀ (remaining : Nat) (first : Bool) (acc : String),
      (clipLoop chunks remaining first acc).length ≤ acc.length + remaining := by
  induction chunks with
  | nil =>
    intro remaining first acc
    simp [clipLoop]
  | cons chunk rest ih =>
    intro remaining first acc
    have h2 : ("\n\n" : String).length = 2 := rfl
    have htake : ∀ n : Nat, (String.mk (chunk.text.data.take n)).length
        = min n chunk.text.length := by
      intro n
      show (chunk.text.data.take n).length = min n chunk.text.length
      simp [List.length_take]
    unfold clipLoop
    split_ifs with h0 hsep hbrk hov hov
    · omega
    · omega
    · rw [String.length_append, String.length_append, h2, htake]
      omega
    · have := ih (remaining - 2 - chunk.text.length) false
        ((acc ++ "\n\n") ++ chunk.text)
      rw [String.length_append, String.length_append, h2] at this
      omega
    · rw [String.length_append, htake]
      omega
    · have := ih (remaining - chunk.text.length) false (acc ++ chunk.text)
      rw [String.length_append] at this
      omega

/-- `clipChunks` never exceeds the budget (in runes). -/
theorem clipChunks_length_le (chunks : List Chunk) (budget : Int) :
    (clipChunks chunks budget).length ≤ budget.toNat := by
  unfold clipChunks
  by_cases h : budget ≤ 0
  · simp [h]
  · simp only [h, if_false]
    have := clipLoop_length_le chunks budget.toNat true ""
    simpa using this

/-- C1.  For every document and every configuration of positive per-kind
budgets, each section context string produced by `Build` has rune length at
most that kind's budget: the clipping loop stops before the budget would be
exceeded and truncates an overflowing chunk to the exact remaining rune
count. -/
theorem build_sections_within_budget (b : BriefSectionKind → Int)
    (content : String) (kind : BriefSectionKind) (hpos : ∀ k, 0 < b k) :
    ((buildPackage (some b) content).sections kind).length ≤ (b kind).toNat := by
  have hb : newBuilderBudgets (some b) kind = b kind := by
    unfold newBuilderBudgets
    simp [hpos kind]
  unfold buildPackage
  simp only
  rw [hb]
  exact clipChunks_length_le _ _

/-- Witness for C1 at a concrete document and budget configuration. -/
theorem build_sections_within_budget_witness :
    (∀ k : BriefSectionKind, 0 < (fun _ : BriefSectionKind => (5 : Int)) k) ∧
      ((buildPackage (some fun _ => (5 : Int)) "hello world\n\nmore text").sections
          BriefSectionKind.summary).length ≤ ((5 : Int)).toNat :=
  ⟨fun k => by cases k <;> decide,
   build_sections_within_budget (fun _ => (5 : Int)) "hello world\n\nmore text"
     BriefSectionKind.summary (fun k => by cases k <;> decide)⟩

/-- Invariant of the paragraph scan: accumulated chunk ids are pairwise
distinct, are all recorded in `seen`, and each id is the content hash of the
chunk's canonical text. -/
theorem buildChunks_invariant (ps : List String) :
    ∀ (seen : List String) (cursor : Nat) (acc : List Chunk),
      (∀ c ∈ acc, c.id ∈ seen) →
      (acc.map Chunk.id).Nodup →
      (∀ c ∈ acc, c.id = hashChunk (canonicalParagraph c.text)) →
      ((buildChunks ps seen cursor acc).map Chunk.id).Nodup ∧
        (∀ c ∈ buildChunks ps seen cursor acc,
          c.id = hashChunk (canonicalParagraph c.text)) := by
  induction ps with
  | nil =>
    intro seen cursor acc hseen hnodup hid
    unfold buildChunks
    constructor
    · rw [List.map_reverse]
      exact List.nodup_reverse.mpr hnodup
    · intro c hc
      exact hid c (List.mem_reverse.mp hc)
  | cons paragraph rest ih =>
    intro seen cursor acc hseen hnodup hid
    unfold buildChunks
    dsimp only
    split_ifs with hblank hboiler hdup
    · exact ih seen cursor acc hseen hnodup hid
    · exact ih seen cursor acc hseen hnodup hid
    · exact ih seen cursor acc hseen hnodup hid
    · apply ih
      · intro c hc
        rcases List.mem_cons.mp hc with hc | hc
        · subst hc; exact List.mem_cons_self _ _
        · exact List.mem_cons_of_mem _ (hseen c hc)
      · rw [List.map_cons]
        refine List.nodup_cons.mpr ⟨?_, hnodup⟩
        intro hmem
        rcases List.mem_map.mp hmem with ⟨c, hc, hcid⟩
        dsimp only at hcid
        exact hdup (List.elem_iff.mpr (hcid ▸ hseen c hc))
      · intro c hc
        rcases List.mem_cons.mp hc with hc | hc
        · subst hc; rfl
        · exact hid c hc

/-- C2.  Within one packaging run, the chunks `Build` emits carry pairwise
distinct content hashes, each computed over the whitespace-collapsed
canonical form of the chunk text — exact duplicates are suppressed. -/
theorem build_chunks_hashes_nodup (budgets : Option (BriefSectionKind → Int))
    (content : String) :
    (((buildPackage budgets content).chunks).map Chunk.id).Nodup ∧
      ∀ c ∈ (buildPackage budgets content).chunks,
        c.id = hashChunk (canonicalParagraph c.text) := by
  unfold buildPackage
  exact buildChunks_invariant _ [] 0 []
    (by intro c hc; cases hc) (by simp) (by intro c hc; cases hc)

/-- C3 counterexample.  On the two-paragraph document below, the chunk
`"model model model"` has three keyword occurrences but code score 1
(`strings.Contains` per keyword), while `"training dataset"` has two
occurrences and code score 2, so `Build` puts `"training dataset"` first in
the Technical section — the opposite of the occurrence-ordered ranking the
claim describes. -/
theorem technical_rank_not_occurrence_ordered :
    scoreTechnicalChunk "model model model" = 1 ∧
      specScoreTechnicalChunk "model model model" = 3 ∧
      scoreTechnicalChunk "training dataset" = 2 ∧
      specScoreTechnicalChunk "training dataset" = 2 ∧
      (buildPackage none "model model model\n\ntraining dataset").sections
          BriefSectionKind.technical
        = "training dataset\n\nmodel model model" ∧
      clipChunks
          (specRankChunksForTechnical
            (buildPackage none "model model model\n\ntraining dataset").chunks)
          (newBuilderBudgets none BriefSectionKind.technical)
        = "model model model\n\ntraining dataset" ∧
      ("training dataset\n\nmodel model model" : String)
        ≠ "model model model\n\ntraining dataset" := by
  decide

/-- C3 as amended.  `Build`'s Technical ordering is the stable sort of the
chunks by *presence* score — the number of distinct domain terms occurring
in the chunk, each counted at most once — descending, ties broken by
original chunk position; the ranked sequence is a permutation of the
original, and the Summary/DeepDive sections use the original chunk order. -/
theorem technical_rank_presence_score_order (chunks : List Chunk) :
    (rankChunksForTechnical chunks).Perm chunks ∧
      List.Pairwise scoredLE ((scoredChunks chunks).insertionSort scoredLE) ∧
      (∀ e ∈ scoredChunks chunks, e.score = scoreTechnicalChunk e.chunk.text ∧
        e.score = (technicalKeywords.filter
          (fun k => goContains (goToLower e.chunk.text) k)).length) ∧
      rankChunksForTechnical chunks
        = ((scoredChunks chunks).insertionSort scoredLE).map ScoredChunk.chunk ∧
      (∀ (budgets : Option (BriefSectionKind → Int)) (content : String),
        (buildPackage budgets content).sections BriefSectionKind.summary
            = clipChunks (buildPackage budgets content).chunks
                (newBuilderBudgets budgets BriefSectionKind.summary) ∧
          (buildPackage budgets content).sections BriefSectionKind.deepDive
            = clipChunks (buildPackage budgets content).chunks
                (newBuilderBudgets budgets BriefSectionKind.deepDive)) := by
  have hmap : (scoredChunks chunks).map ScoredChunk.chunk = chunks := by
    unfold scoredChunks
    rw [List.map_map]
    exact List.enum_map_snd chunks
  refine ⟨?_, ?_, ?_, ?_, ?_⟩
  · unfold rankChunksForTechnical
    split_ifs with h
    · exact List.Perm.refl _
    · have hp := (List.perm_insertionSort scoredLE (scoredChunks chunks)).map
        ScoredChunk.chunk
      rw [hmap] at hp
      exact hp
  · exact List.sorted_insertionSort scoredLE _
  · intro e he
    unfold scoredChunks at he
    rcases List.mem_map.mp he with ⟨p, _, hp⟩
    subst hp
    refine ⟨rfl, ?_⟩
    show scoreTechnicalChunk p.2.text = _
    unfold scoreTechnicalChunk
    rw [List.countP_eq_length_filter]
  · unfold rankChunksForTechnical
    split_ifs with h
    · subst h
      simp [scoredChunks, List.insertionSort]
    · rfl
  · intro budgets content
    exact ⟨rfl, rfl⟩

/-! ## C6: zero/negative configured budgets -/

/-- C6 counterexample.  Configuring a zero budget for every kind does not
make `Build` emit empty sections: `NewBuilder` replaces a non-positive
configured budget with the default `BriefSectionLimit`, so the Summary
section of a one-paragraph document is the paragraph itself, not `""`. -/
theorem zero_budget_not_empty_section :
    (buildPackage (some fun _ => 0) "training dataset").sections
        BriefSectionKind.summary = "training dataset" ∧
      ("training dataset" : String) ≠ "" := by
  decide

/-- C6 as amended.  A zero or negative budget yields an empty string at the
clipping level (`clipChunks`), for every chunk list; but a zero or negative
*configured* budget never reaches `clipChunks`: `NewBuilder` falls back to
the default `BriefSectionLimit` for that kind, so `Build` clips against the
default budget instead. -/
theorem clip_nonpositive_budget_empty :
    (∀ (chunks : List Chunk) (budget : Int), budget ≤ 0 →
        clipChunks chunks budget = "") ∧
      ∀ (b : BriefSectionKind → Int) (kind : BriefSectionKind), b kind ≤ 0 →
        newBuilderBudgets (some b) kind = BriefSectionLimit kind := by
  constructor
  · intro chunks budget hb
    unfold clipChunks
    simp [hb]
  · intro b kind hb
    unfold newBuilderBudgets
    simp
    omega

/-- Witness for the amended C6 at concrete inputs. -/
theorem clip_nonpositive_budget_empty_witness :
    clipChunks [{ id := "h", text := "hello", startOff := 0, endOff := 5 }]
        (-3) = "" ∧
      newBuilderBudgets (some fun _ => 0) BriefSectionKind.summary
        = BriefSectionLimit BriefSectionKind.summary :=
  ⟨clip_nonpositive_budget_empty.1 _ (-3) (by decide),
   clip_nonpositive_budget_empty.2 _ BriefSectionKind.summary (by decide)⟩

/-! ## Theorems about readiness and the question queue -/

/-- One kind's entry passes the readiness scan iff it is present and is
completed or carries a non-empty error. -/
theorem kindEntry_ready_iff (o : Option BriefSectionState) :
    (match o with
      | none => false
      | some st => st.completed || !(st.error = "")) = true ↔
      ∃ st, o = some st ∧ (st.completed = true ∨ st.error ≠ "") := by
  cases o with
  | none => simp
  | some st => simp [Bool.or_eq_true]

/-- Propositional characterisation of `briefReadyForQuestions`. -/
theorem briefReady_iff_prop (m : TuiModel) :
    briefReadyForQuestions m = true ↔
      m.paper = none ∨ m.llmConfigured = false ∨
        (∃ p, m.paper = some p ∧ goTrimSpace p.fullText = "") ∨
        (∃ secs, m.briefSections = some secs ∧
          ∀ kind ∈ briefSectionKinds, ∃ st, secs kind = some st ∧
            (st.completed = true ∨ st.error ≠ "")) := by
  unfold briefReadyForQuestions
  rcases hp : m.paper with _ | p
  · simp [hp]
  · rcases hl : m.llmConfigured
    · simp [hp, hl]
    · by_cases hft : goTrimSpace p.fullText = ""
      · simp [hp, hl, hft]
      · rcases hs : m.briefSections with _ | secs
        · simp [hp, hl, hft, hs]
        · simp only [hp, hl, hft, hs, Bool.not_true, Bool.false_eq_true,
            if_false, if_true, List.all_eq_true]
          constructor
          · intro hall
            refine Or.inr (Or.inr (Or.inr ⟨secs, rfl, ?_⟩))
            intro kind hk
            exact (kindEntry_ready_iff (secs kind)).mp (hall kind hk)
          · intro h
            rcases h with h | h | ⟨q, hq, _⟩ | ⟨secs2, hsecs, hall⟩
            · exact absurd h (by simp)
            · exact absurd h (by simp [hl])
            · exact absurd (hq.symm.trans rfl) (by simp_all)
            · intro kind hk
              cases hsecs
              exact (kindEntry_ready_iff (secs kind)).mpr (hall kind hk)

/-- `markBriefSectionResult` only writes `briefSections` and `briefLoading`:
the paper, client, queue, loading flag and history length are untouched. -/
theorem markBriefSectionResult_frame (m : TuiModel) (kind : BriefSectionKind)
    (err : Option String) :
    (markBriefSectionResult m kind err).1.paper = m.paper ∧
      (markBriefSectionResult m kind err).1.llmConfigured = m.llmConfigured ∧
      (markBriefSectionResult m kind err).1.knowledgeBasePath = m.knowledgeBasePath ∧
      (markBriefSectionResult m kind err).1.brief = m.brief ∧
      (markBriefSectionResult m kind err).1.queuedQuestions = m.queuedQuestions ∧
      (markBriefSectionResult m kind err).1.questionLoading = m.questionLoading ∧
      (markBriefSectionResult m kind err).1.qaHistoryLen = m.qaHistoryLen := by
  unfold markBriefSectionResult ensureBriefSections setSectionState
  rcases hs : m.briefSections with _ | secs <;> rcases err with _ | e <;>
    exact ⟨rfl, rfl, rfl, rfl, rfl, rfl, rfl⟩

/-- After `setSectionState` the written kind reads back the written state
and every other kind reads its previous state. -/
theorem setSectionState_read (m : TuiModel) (kind : BriefSectionKind)
    (st : BriefSectionState) (k : BriefSectionKind) :
    sectionStateOf (setSectionState m kind st) k =
      if k = kind then st else sectionStateOf m k := by
  unfold setSectionState sectionStateOf
  rcases hs : m.briefSections with _ | secs <;> by_cases hk : k = kind <;>
    simp [hk]

/-- The state `markBriefSectionResult` writes for the marked kind, and the
frame for every other kind. -/
theorem markBriefSectionResult_read (m : TuiModel) (kind : BriefSectionKind)
    (err : Option String) (k : BriefSectionKind) :
    sectionStateOf (markBriefSectionResult m kind err).1 k =
      if k = kind then
        (match err with
          | some e => { loading := false, completed := false, error := e }
          | none => { loading := false, completed := true, error := "" })
      else sectionStateOf m k := by
  unfold markBriefSectionResult ensureBriefSections setSectionState sectionStateOf
  rcases hs : m.briefSections with _ | secs <;> rcases err with _ | e <;>
    by_cases hk : k = kind <;> simp [hk]

/-- `launchQuestion` only writes `infoMessage` and `questionLoading`. -/
theorem launchQuestion_frame (m : TuiModel) (index : Nat) (info : String) :
    (launchQuestion m index info).1.paper = m.paper ∧
      (launchQuestion m index info).1.briefSections = m.briefSections ∧
      (launchQuestion m index info).1.brief = m.brief ∧
      (launchQuestion m index info).1.queuedQuestions = m.queuedQuestions := by
  unfold launchQuestion
  rcases hp : m.paper with _ | p
  · simp [hp]
  · by_cases hl : m.llmConfigured <;> by_cases hi : index < m.qaHistoryLen <;>
      simp [hp, hl, hi]

/-- `maybeStartQueuedQuestion` never writes `briefSections` or `brief`. -/
theorem maybeStartQueuedQuestion_frame (m : TuiModel) :
    (maybeStartQueuedQuestion m).1.briefSections = m.briefSections ∧
      (maybeStartQueuedQuestion m).1.brief = m.brief := by
  unfold maybeStartQueuedQuestion
  by_cases hc : (!briefReadyForQuestions m || m.questionLoading ||
      m.queuedQuestions.isEmpty) = true
  · simp [hc]
  · simp only [hc, if_false]
    rcases hq : m.queuedQuestions with _ | ⟨i, rest⟩
    · exact ⟨rfl, rfl⟩
    · have := launchQuestion_frame { m with queuedQuestions := rest } i
        "Answering queued question via LLM…"
      exact ⟨this.2.1, this.2.2.1⟩

/-- `setSectionState` only writes `briefSections`. -/
theorem setSectionState_frame (m : TuiModel) (kind : BriefSectionKind)
    (st : BriefSectionState) :
    (setSectionState m kind st).paper = m.paper ∧
      (setSectionState m kind st).llmConfigured = m.llmConfigured ∧
      (setSectionState m kind st).brief = m.brief ∧
      (setSectionState m kind st).queuedQuestions = m.queuedQuestions ∧
      (setSectionState m kind st).questionLoading = m.questionLoading ∧
      (setSectionState m kind st).qaHistoryLen = m.qaHistoryLen := by
  unfold setSectionState
  rcases hs : m.briefSections with _ | secs <;>
    exact ⟨rfl, rfl, rfl, rfl, rfl, rfl⟩

/-- `updateBriefContent` only writes `brief`. -/
theorem updateBriefContent_frame (m : TuiModel) (kind : BriefSectionKind)
    (bullets : List String) :
    (updateBriefContent m kind bullets).paper = m.paper ∧
      (updateBriefContent m kind bullets).llmConfigured = m.llmConfigured ∧
      (updateBriefContent m kind bullets).briefSections = m.briefSections ∧
      (updateBriefContent m kind bullets).briefLoading = m.briefLoading ∧
      (updateBriefContent m kind bullets).queuedQuestions = m.queuedQuestions ∧
      (updateBriefContent m kind bullets).questionLoading = m.questionLoading ∧
      (updateBriefContent m kind bullets).qaHistoryLen = m.qaHistoryLen := by
  cases kind <;> exact ⟨rfl, rfl, rfl, rfl, rfl, rfl, rfl⟩

/-- The readiness predicate only reads the paper, the client flag and the
section map. -/
theorem briefReady_eq_of_fields (m m' : TuiModel) (hp : m'.paper = m.paper)
    (hl : m'.llmConfigured = m.llmConfigured)
    (hs : m'.briefSections = m.briefSections) :
    briefReadyForQuestions m' = briefReadyForQuestions m := by
  unfold briefReadyForQuestions
  rw [hp, hl, hs]

/-- Writing a terminal state (completed, or a non-empty error) into any kind
preserves readiness. -/
theorem ready_preserved_set (m : TuiModel) (kind : BriefSectionKind)
    (st : BriefSectionState) (hready : briefReadyForQuestions m = true)
    (hterm : st.completed = true ∨ st.error ≠ "") :
    briefReadyForQuestions (setSectionState m kind st) = true := by
  rw [briefReady_iff_prop] at hready ⊢
  obtain ⟨hpf, hlf, _, _, _, _⟩ := setSectionState_frame m kind st
  rcases hready with h | h | ⟨p, hp, hft⟩ | ⟨secs, hs, hall⟩
  · exact Or.inl (hpf.trans h)
  · exact Or.inr (Or.inl (hlf.trans h))
  · exact Or.inr (Or.inr (Or.inl ⟨p, hpf.trans hp, hft⟩))
  · refine Or.inr (Or.inr (Or.inr ?_))
    unfold setSectionState
    rw [hs]
    refine ⟨_, rfl, ?_⟩
    intro k hk
    by_cases hkk : k = kind
    · exact ⟨st, by simp [hkk], hterm⟩
    · rcases hall k hk with ⟨stk, hstk, htermk⟩
      exact ⟨stk, by simp [hkk, hstk], htermk⟩

/-- The prefixed error text recorded for a failed section is never empty. -/
theorem titleError_ne_empty (kind : BriefSectionKind) (e : String) :
    briefSectionTitle kind ++ " section error: " ++ e ≠ "" := by
  intro h
  have := congrArg String.length h
  rw [String.length_append, String.length_append] at this
  cases kind <;> simp [briefSectionTitle] at this <;>
    exact absurd this.1.1 (by decide)

/-- When ready, idle and queued, `maybeStartQueuedQuestion` dequeues the
head of the queue (the oldest submitted question), launches exactly it, and
leaves the rest queued in order. -/
theorem maybeStart_dequeues (m : TuiModel) (p : Paper) (i : Nat)
    (rest : List Nat) (hp : m.paper = some p) (hllm : m.llmConfigured = true)
    (hready : briefReadyForQuestions m = true)
    (hload : m.questionLoading = false) (hq : m.queuedQuestions = i :: rest)
    (hi : i < m.qaHistoryLen) :
    (maybeStartQueuedQuestion m).1.queuedQuestions = rest ∧
      (maybeStartQueuedQuestion m).2 = some i ∧
      (maybeStartQueuedQuestion m).1.questionLoading = true := by
  unfold maybeStartQueuedQuestion
  rw [hready, hload, hq]
  simp only [Bool.not_true, Bool.false_or, Bool.or_false, List.isEmpty_cons,
    Bool.false_eq_true, if_false]
  unfold launchQuestion
  simp only [hp]
  simp [hllm, hi]

/-- `sectionStateOf` only reads the section map. -/
theorem sectionStateOf_congr (m m' : TuiModel)
    (hs : m'.briefSections = m.briefSections) (k : BriefSectionKind) :
    sectionStateOf m' k = sectionStateOf m k := by
  unfold sectionStateOf
  rw [hs]

/-- The state `markBriefSectionResult` returns. -/
theorem markBriefSectionResult_snd (m : TuiModel) (kind : BriefSectionKind)
    (err : Option String) :
    (markBriefSectionResult m kind err).2 =
      (match err with
        | some e => { loading := false, completed := false, error := e }
        | none => { loading := false, completed := true, error := "" }) := by
  cases err <;> rfl

/-- Field frame of the failure model: everything except `briefSections`,
`briefLoading` and the info/error messages is untouched. -/
theorem handleBriefFailureModel_frame (m : TuiModel) (kind : BriefSectionKind)
    (e : String) :
    (handleBriefFailureModel m kind e).paper = m.paper ∧
      (handleBriefFailureModel m kind e).llmConfigured = m.llmConfigured ∧
      (handleBriefFailureModel m kind e).brief = m.brief ∧
      (handleBriefFailureModel m kind e).queuedQuestions = m.queuedQuestions ∧
      (handleBriefFailureModel m kind e).questionLoading = m.questionLoading ∧
      (handleBriefFailureModel m kind e).qaHistoryLen = m.qaHistoryLen := by
  obtain ⟨m1p, m1l, m1k, m1b, m1q, m1ql, m1h⟩ :=
    markBriefSectionResult_frame m kind (some e)
  obtain ⟨s2p, s2l, s2b, s2q, s2ql, s2h⟩ :=
    setSectionState_frame (markBriefSectionResult m kind (some e)).1 kind
      { (markBriefSectionResult m kind (some e)).2 with
        error := briefSectionTitle kind ++ " section error: " ++ e }
  unfold handleBriefFailureModel
  exact ⟨s2p.trans m1p, s2l.trans m1l, s2b.trans m1b, s2q.trans m1q,
    s2ql.trans m1ql, s2h.trans m1h⟩

/-- Field frame of the success model: queue-related fields are untouched. -/
theorem handleBriefSuccessModel_frame (m : TuiModel) (kind : BriefSectionKind)
    (bullets : List String) :
    (handleBriefSuccessModel m kind bullets).paper = m.paper ∧
      (handleBriefSuccessModel m kind bullets).llmConfigured = m.llmConfigured ∧
      (handleBriefSuccessModel m kind bullets).queuedQuestions = m.queuedQuestions ∧
      (handleBriefSuccessModel m kind bullets).questionLoading = m.questionLoading ∧
      (handleBriefSuccessModel m kind bullets).qaHistoryLen = m.qaHistoryLen := by
  obtain ⟨m1p, m1l, m1k, m1b, m1q, m1ql, m1h⟩ :=
    markBriefSectionResult_frame m kind none
  obtain ⟨up, ul, us, ubl, uq, uql, uh⟩ :=
    updateBriefContent_frame (markBriefSectionResult m kind none).1 kind bullets
  unfold handleBriefSuccessModel
  exact ⟨up.trans m1p, ul.trans m1l, uq.trans m1q, uql.trans m1ql, uh.trans m1h⟩

/-- If the model is ready right after marking the failed section, it is
still ready after the failure model overwrites that kind's error with the
(never empty) prefixed text. -/
theorem handleBriefFailureModel_ready (m : TuiModel) (kind : BriefSectionKind)
    (e : String)
    (h : briefReadyForQuestions (markBriefSectionResult m kind (some e)).1 = true) :
    briefReadyForQuestions (handleBriefFailureModel m kind e) = true := by
  unfold handleBriefFailureModel
  have hset := ready_preserved_set (markBriefSectionResult m kind (some e)).1 kind
    { (markBriefSectionResult m kind (some e)).2 with
      error := briefSectionTitle kind ++ " section error: " ++ e } h
    (Or.inr (titleError_ne_empty kind e))
  exact (briefReady_eq_of_fields _ _ rfl rfl rfl).trans hset

/-- Readiness after marking a success carries over to the success model. -/
theorem handleBriefSuccessModel_ready (m : TuiModel) (kind : BriefSectionKind)
    (bullets : List String)
    (h : briefReadyForQuestions (markBriefSectionResult m kind none).1 = true) :
    briefReadyForQuestions (handleBriefSuccessModel m kind bullets) = true := by
  unfold handleBriefSuccessModel
  obtain ⟨up, ul, us, _, _, _, _⟩ :=
    updateBriefContent_frame (markBriefSectionResult m kind none).1 kind bullets
  exact ((briefReady_eq_of_fields _ _ rfl rfl rfl).trans
    (briefReady_eq_of_fields _ _ up ul us)).trans h

/-- Per-kind read of the failure model: the failed kind holds the Failed
state with the prefixed error, every other kind reads exactly its previous
state. -/
theorem handleBriefFailureModel_read (m : TuiModel) (kind : BriefSectionKind)
    (e : String) (k : BriefSectionKind) :
    sectionStateOf (handleBriefFailureModel m kind e) k =
      if k = kind then
        { loading := false, completed := false,
          error := briefSectionTitle kind ++ " section error: " ++ e }
      else sectionStateOf m k := by
  have h0 : sectionStateOf (handleBriefFailureModel m kind e) k =
      sectionStateOf (setSectionState (markBriefSectionResult m kind (some e)).1
        kind
        { (markBriefSectionResult m kind (some e)).2 with
          error := briefSectionTitle kind ++ " section error: " ++ e }) k :=
    sectionStateOf_congr _ _ rfl k
  rw [h0, setSectionState_read]
  by_cases hkk : k = kind
  · rw [if_pos hkk, if_pos hkk, markBriefSectionResult_snd]
  · rw [if_neg hkk, if_neg hkk, markBriefSectionResult_read, if_neg hkk]

/-- C5.  When a section result arrives for the active paper and, once the
terminal state is recorded, the readiness predicate holds, no question is in
flight and the queue is non-empty, then exactly the oldest queued question
is dequeued and dispatched, and the remaining queue (in submission order) is
kept. -/
theorem terminal_event_releases_oldest_question (m : TuiModel)
    (msg : BriefSectionMsg) (p : Paper) (i : Nat) (rest : List Nat)
    (hp : m.paper = some p) (hid : p.id = msg.paperID)
    (hllm : m.llmConfigured = true)
    (hready :
      briefReadyForQuestions (markBriefSectionResult m msg.kind msg.err).1 = true)
    (hload : m.questionLoading = false)
    (hq : m.queuedQuestions = i :: rest)
    (hi : i < m.qaHistoryLen) :
    (handleBriefSectionResult m msg).1.queuedQuestions = rest ∧
      (handleBriefSectionResult m msg).2.launchedQuestion = some i ∧
      (handleBriefSectionResult m msg).1.questionLoading = true := by
  unfold handleBriefSectionResult
  simp only [hp]
  rw [if_neg (by simp [hid])]
  cases herr : msg.err with
  | some e =>
    rw [herr] at hready
    dsimp only
    obtain ⟨fp, fl, fb, fq, fql, fh⟩ := handleBriefFailureModel_frame m msg.kind e
    have hd := maybeStart_dequeues (handleBriefFailureModel m msg.kind e) p i rest
      (fp.trans hp) (fl.trans hllm) (handleBriefFailureModel_ready m msg.kind e hready)
      (fql.trans hload) (fq.trans hq) (by rw [fh]; exact hi)
    exact ⟨hd.1, hd.2.1, hd.2.2⟩
  | none =>
    rw [herr] at hready
    dsimp only
    obtain ⟨fp, fl, fq, fql, fh⟩ :=
      handleBriefSuccessModel_frame m msg.kind msg.bullets
    have hd := maybeStart_dequeues (handleBriefSuccessModel m msg.kind msg.bullets)
      p i rest (fp.trans hp) (fl.trans hllm)
      (handleBriefSuccessModel_ready m msg.kind msg.bullets hready)
      (fql.trans hload) (fq.trans hq) (by rw [fh]; exact hi)
    exact ⟨hd.1, hd.2.1, hd.2.2⟩

/-- C10.  Handling a generation failure for one kind transitions only that
kind — to not-loading, not-completed, with the prefixed error text — and
leaves every sibling kind's section state and all accumulated bullets
exactly as they were. -/
theorem failure_isolated_to_one_kind (m : TuiModel) (msg : BriefSectionMsg)
    (e : String) (p : Paper) (k : BriefSectionKind)
    (hp : m.paper = some p) (hid : p.id = msg.paperID)
    (herr : msg.err = some e) (hk : k ≠ msg.kind) :
    sectionStateOf (handleBriefSectionResult m msg).1 k = sectionStateOf m k ∧
      (handleBriefSectionResult m msg).1.brief = m.brief ∧
      sectionStateOf (handleBriefSectionResult m msg).1 msg.kind =
        { loading := false, completed := false,
          error := briefSectionTitle msg.kind ++ " section error: " ++ e } := by
  unfold handleBriefSectionResult
  simp only [hp]
  rw [if_neg (by simp [hid]), herr]
  dsimp only
  obtain ⟨msb, mbr⟩ :=
    maybeStartQueuedQuestion_frame (handleBriefFailureModel m msg.kind e)
  obtain ⟨_, _, fb, _, _, _⟩ := handleBriefFailureModel_frame m msg.kind e
  refine ⟨?_, ?_, ?_⟩
  · rw [sectionStateOf_congr _ _ msb k, handleBriefFailureModel_read, if_neg hk]
  · rw [mbr, fb]
  · rw [sectionStateOf_congr _ _ msb msg.kind, handleBriefFailureModel_read,
      if_pos rfl]

/-- C4 counterexample.  In `c4Model` the DeepDive kind was never started
(zero state: not loading, not completed, no error), so by the claim's
reading — Running is the only blocking state — readiness should hold; the
code's predicate nevertheless reports not ready. -/
theorem readiness_blocks_never_started :
    specReadyForQuestions c4Model = true ∧
      sectionStateOf c4Model BriefSectionKind.deepDive = emptyBriefSectionState ∧
      briefReadyForQuestions c4Model = false := by
  decide

/-- C4 as amended.  With a paper, an LLM client and non-blank full text,
readiness holds iff the section map exists and every configured kind is
present with `Completed` or a non-empty error: Failed does not block, but a
kind that was never started (zero state or missing, hence neither completed
nor errored) blocks readiness exactly like Running. -/
theorem briefReady_requires_completed_or_error (m : TuiModel) (p : Paper)
    (hp : m.paper = some p) (hl : m.llmConfigured = true)
    (hft : goTrimSpace p.fullText ≠ "") :
    briefReadyForQuestions m = true ↔
      ∃ secs, m.briefSections = some secs ∧
        ∀ kind ∈ briefSectionKinds, ∃ st, secs kind = some st ∧
          (st.completed = true ∨ st.error ≠ "") := by
  rw [briefReady_iff_prop]
  constructor
  · rintro (h | h | ⟨q, hq, hqft⟩ | h)
    · rw [hp] at h; cases h
    · rw [hl] at h; cases h
    · rw [hp] at hq
      injection hq with hq
      subst hq
      exact absurd hqft hft
    · exact h
  · intro h
    exact Or.inr (Or.inr (Or.inr h))

/-- Witness for the amended C4: a model with every kind completed is ready. -/
theorem briefReady_requires_completed_or_error_witness :
    briefReadyForQuestions c4ReadyModel = true :=
  (briefReady_requires_completed_or_error c4ReadyModel samplePaper rfl rfl
      (by decide)).mpr
    ⟨c4AllDone, rfl, fun kind _ =>
      ⟨{ loading := false, completed := true, error := "" }, rfl, Or.inl rfl⟩⟩

/-- Witness for C5: when the last running section succeeds, the single
queued question is dequeued and dispatched. -/
theorem terminal_event_releases_oldest_question_witness :
    (handleBriefSectionResult c5Model c5Msg).1.queuedQuestions = [] ∧
      (handleBriefSectionResult c5Model c5Msg).2.launchedQuestion = some 0 ∧
      (handleBriefSectionResult c5Model c5Msg).1.questionLoading = true :=
  terminal_event_releases_oldest_question c5Model c5Msg samplePaper 0 []
    rfl rfl rfl (by decide) rfl rfl (by decide)

/-- Witness for C10: failing DeepDive leaves Summary's state and all
accumulated bullets untouched and records the prefixed error on DeepDive. -/
theorem failure_isolated_to_one_kind_witness :
    sectionStateOf (handleBriefSectionResult c10Model c10Msg).1
        BriefSectionKind.summary = sectionStateOf c10Model BriefSectionKind.summary ∧
      (handleBriefSectionResult c10Model c10Msg).1.brief = c10Model.brief ∧
      sectionStateOf (handleBriefSectionResult c10Model c10Msg).1
          BriefSectionKind.deepDive =
        { loading := false, completed := false,
          error := "Deep Dive section error: boom" } :=
  failure_isolated_to_one_kind c10Model c10Msg "boom" samplePaper
    BriefSectionKind.summary rfl rfl rfl (by decide)

/-! ## Theorems about the Snapshot Store -/

/-- Scanning the conversation projection of the log for a paper id is the
same as scanning the raw entries. -/
theorem filterMapConv_any (es : List LogEntry) (pid : String) :
    ((es.filterMap fun entry =>
        match entry with
        | .conv s => some s
        | .note _ => none).any fun s => s.paperID = pid) =
      es.any (isConvFor pid) := by
  induction es with
  | nil => rfl
  | cons e rest ih => cases e <;> simp [isConvFor, ih]

/-- `ensureConversationSnapshot` is a no-op on a log that already holds a
snapshot for the paper. -/
theorem ensure_noop_when_found (path pid title : String) (now2 : Nat)
    (es : List LogEntry) (hpath : path ≠ "") (hpid : pid ≠ "")
    (hfound : 0 < es.countP (isConvFor pid)) :
    ensureConversationSnapshot path pid title now2 (.stored es) = .stored es := by
  unfold ensureConversationSnapshot loadConversationSnapshots loadEntries
  rw [if_neg (by push_neg; exact ⟨hpath, hpid⟩)]
  have hany : ((es.filterMap fun entry =>
      match entry with
      | .conv s => some s
      | .note _ => none).any fun s => s.paperID = pid) = true := by
    rw [filterMapConv_any, List.any_eq_true]
    exact List.countP_pos.mp hfound
  simp only [hany, if_true]

/-- After one successful ensure on a non-corrupt log with at most one
matching record, the log is stored and holds exactly one matching record. -/
theorem ensure_stored_count_one (path pid title : String) (now : Nat)
    (fs : FileState) (hpath : path ≠ "") (hpid : pid ≠ "")
    (hfs : fs ≠ FileState.corrupt)
    (hcount : convCount fs pid ≤ 1) :
    ∃ es, ensureConversationSnapshot path pid title now fs = .stored es ∧
      es.countP (isConvFor pid) = 1 := by
  have hguard : ¬(path = "" ∨ pid = "") := by push_neg; exact ⟨hpath, hpid⟩
  rcases fs with _ | es | _
  · refine ⟨[.conv { newConvSnapshot pid title now with
      entryType := "conversation" }], ?_, ?_⟩
    · unfold ensureConversationSnapshot loadConversationSnapshots loadEntries
        saveConversationSnapshots appendEntries
      rw [if_neg hguard]
      simp
    · simp [isConvFor, newConvSnapshot]
  · by_cases hany : es.any (isConvFor pid) = true
    · refine ⟨es, ?_, ?_⟩
      · exact ensure_noop_when_found path pid title now es hpath hpid
          (List.countP_pos.mpr (List.any_eq_true.mp hany))
      · have h1 : 0 < es.countP (isConvFor pid) :=
          List.countP_pos.mpr (List.any_eq_true.mp hany)
        have h2 : es.countP (isConvFor pid) ≤ 1 := hcount
        omega
    · refine ⟨es ++ [.conv { newConvSnapshot pid title now with
        entryType := "conversation" }], ?_, ?_⟩
      · unfold ensureConversationSnapshot loadConversationSnapshots loadEntries
          saveConversationSnapshots appendEntries
        rw [if_neg hguard]
        have hany2 : ((es.filterMap fun entry =>
            match entry with
            | .conv s => some s
            | .note _ => none).any fun s => s.paperID = pid) = false := by
          rw [filterMapConv_any]
          exact Bool.not_eq_true _ ▸ (Bool.eq_false_iff.mpr hany)
        simp [hany2]
      · have hzero : es.countP (isConvFor pid) = 0 := by
          by_contra hne
          exact hany (List.any_eq_true.mpr
            (List.countP_pos.mp (Nat.pos_of_ne_zero hne)))
        rw [List.countP_append, hzero]
        simp [isConvFor, newConvSnapshot]
  · exact absurd rfl hfs

/-- C7.  For a non-empty path and paper id and a non-corrupt log holding at
most one snapshot for that id, the ensure operation leaves exactly one
snapshot record for the id after any positive number of runs, and every
repeated run (at any later time) is a no-op that appends nothing. -/
theorem ensure_snapshot_idempotent (path pid title : String) (now now2 : Nat)
    (fs : FileState) (hpath : path ≠ "") (hpid : pid ≠ "")
    (hfs : fs ≠ FileState.corrupt)
    (hcount : convCount fs pid ≤ 1) :
    convCount (ensureConversationSnapshot path pid title now fs) pid = 1 ∧
      ensureConversationSnapshot path pid title now2
          (ensureConversationSnapshot path pid title now fs) =
        ensureConversationSnapshot path pid title now fs ∧
      ∀ n : Nat,
        convCount ((ensureConversationSnapshot path pid title now)^[n + 1] fs)
          pid = 1 := by
  obtain ⟨es, hes, hone⟩ :=
    ensure_stored_count_one path pid title now fs hpath hpid hfs hcount
  have hnoop : ∀ t : Nat, ensureConversationSnapshot path pid title t
      (ensureConversationSnapshot path pid title now fs) =
      ensureConversationSnapshot path pid title now fs := by
    intro t
    rw [hes]
    exact ensure_noop_when_found path pid title t es hpath hpid (by omega)
  have hiter : ∀ n : Nat,
      (ensureConversationSnapshot path pid title now)^[n]
        (ensureConversationSnapshot path pid title now fs) =
      ensureConversationSnapshot path pid title now fs := by
    intro n
    induction n with
    | zero => rfl
    | succ k ih =>
      rw [Function.iterate_succ_apply, hnoop now, ih]
  refine ⟨?_, hnoop now2, ?_⟩
  · rw [hes]
    unfold convCount
    exact hone
  · intro n
    rw [Function.iterate_succ_apply, hiter n, hes]
    unfold convCount
    exact hone

/-- Witness for C7 on an initially missing log file. -/
theorem ensure_snapshot_idempotent_witness :
    convCount (ensureConversationSnapshot "kb.json" "1234.56789" "Fixture" 7
        FileState.missing) "1234.56789" = 1 ∧
      ensureConversationSnapshot "kb.json" "1234.56789" "Fixture" 9
          (ensureConversationSnapshot "kb.json" "1234.56789" "Fixture" 7
            FileState.missing) =
        ensureConversationSnapshot "kb.json" "1234.56789" "Fixture" 7
          FileState.missing ∧
      ∀ n : Nat,
        convCount ((ensureConversationSnapshot "kb.json" "1234.56789" "Fixture" 7)^[n + 1]
          FileState.missing) "1234.56789" = 1 :=
  ensure_snapshot_idempotent "kb.json" "1234.56789" "Fixture" 7 9
    FileState.missing (by decide) (by decide) (by decide) (by decide)

/-- Merging a single tagged metadata entry reduces to the replace-or-append
scan. -/
theorem mergeSnapshotUpdate_meta (s : ConvSnapshot) (title : String)
    (now : Nat) (u : BriefSectionMetadata) (hk : u.kind ≠ "") :
    (mergeSnapshotUpdate s title (metaOnlyUpdate u) now).sectionMetadata =
      replaceOrAppendMeta s.sectionMetadata u := by
  unfold mergeSnapshotUpdate metaOnlyUpdate mergeSectionMetadata
  simp [hk]

/-- The replace-or-append scan on a list with at most one entry of the
update's kind: afterwards the update is the only entry of its kind, and the
entries of every other kind are unchanged (in order). -/
theorem replaceOrAppendMeta_filters (ex : List BriefSectionMetadata)
    (u : BriefSectionMetadata) (hcount : countKind ex u.kind ≤ 1) :
    (replaceOrAppendMeta ex u).filter (fun e => e.kind = u.kind) = [u] ∧
      (replaceOrAppendMeta ex u).filter (fun e => ¬(e.kind = u.kind)) =
        ex.filter (fun e => ¬(e.kind = u.kind)) := by
  revert hcount
  induction ex with
  | nil =>
    intro hcount
    constructor <;> simp [replaceOrAppendMeta]
  | cons x rest ih =>
    intro hcount
    unfold replaceOrAppendMeta
    by_cases hx : x.kind = u.kind
    · rw [if_pos hx]
      have hzero : rest.countP (fun e => decide (e.kind = u.kind)) = 0 := by
        have := hcount
        unfold countKind at this
        rw [List.countP_cons] at this
        simp [hx] at this
        exact List.countP_eq_zero.mpr (by simpa using this)
      have hnil : rest.filter (fun e => e.kind = u.kind) = [] := by
        rw [List.filter_eq_nil]
        intro a ha hpa
        have := List.countP_eq_zero.mp hzero a ha
        simp_all
      constructor
      · simp [List.filter_cons, hnil]
      · simp [List.filter_cons, hx]
    · rw [if_neg hx]
      have hc : countKind rest u.kind ≤ 1 := by
        have h2 := hcount
        rw [countKind, List.countP_cons] at h2
        rw [countKind]
        simp [hx] at h2
        exact h2
      obtain ⟨ih1, ih2⟩ := ih hc
      have ih2' := ih2
      simp only [decide_not] at ih2'
      constructor
      · simp [List.filter_cons, hx, ih1]
      · simp [List.filter_cons, hx, ih2']

/-- C8.  Folding any non-empty run of metadata updates, all tagged with the
same non-empty kind, into a snapshot that holds at most one entry of that
kind leaves exactly one entry of that kind — the last update — and keeps
the entries of every other kind unchanged. -/
theorem merge_metadata_replaces_kind (s : ConvSnapshot) (title : String)
    (now : Nat) (k : String) (us : List BriefSectionMetadata)
    (hne : us ≠ []) (hks : ∀ u ∈ us, u.kind = k) (hk : k ≠ "")
    (hcount : countKind s.sectionMetadata k ≤ 1) :
    countKind
        (us.foldl
          (fun acc u => mergeSnapshotUpdate acc title (metaOnlyUpdate u) now)
          s).sectionMetadata k = 1 ∧
      (us.foldl
          (fun acc u => mergeSnapshotUpdate acc title (metaOnlyUpdate u) now)
          s).sectionMetadata.filter (fun e => e.kind = k) = [us.getLast hne] ∧
      (us.foldl
          (fun acc u => mergeSnapshotUpdate acc title (metaOnlyUpdate u) now)
          s).sectionMetadata.filter (fun e => ¬(e.kind = k)) =
        s.sectionMetadata.filter (fun e => ¬(e.kind = k)) := by
  revert hne hks hcount
  induction us generalizing s with
  | nil =>
    intro hne hks hcount
    exact absurd rfl hne
  | cons u rest ih =>
    intro hne hks hcount
    have hu : u.kind = k := hks u (List.mem_cons_self u rest)
    have huk : u.kind ≠ "" := by rw [hu]; exact hk
    have hmeta :
        (mergeSnapshotUpdate s title (metaOnlyUpdate u) now).sectionMetadata =
          replaceOrAppendMeta s.sectionMetadata u :=
      mergeSnapshotUpdate_meta s title now u huk
    obtain ⟨hf1, hf2⟩ := replaceOrAppendMeta_filters s.sectionMetadata u
      (by rw [countKind, hu]; exact hcount)
    rw [hu] at hf1 hf2
    by_cases hr : rest = []
    · subst hr
      rw [List.foldl_cons, List.foldl_nil]
      refine ⟨?_, ?_, ?_⟩
      · rw [countKind, List.countP_eq_length_filter, hmeta, hf1]
        simp
      · rw [hmeta, hf1]
        simp
      · rw [hmeta, hf2]
    · rw [List.foldl_cons]
      have hcount1 : countKind
          (mergeSnapshotUpdate s title (metaOnlyUpdate u) now).sectionMetadata
            k ≤ 1 := by
        rw [countKind, List.countP_eq_length_filter, hmeta, hf1]
        simp
      obtain ⟨ihc, ihf1, ihf2⟩ :=
        ih (mergeSnapshotUpdate s title (metaOnlyUpdate u) now) hr
          (fun v hv => hks v (List.mem_cons_of_mem u hv)) hcount1
      refine ⟨ihc, ?_, ?_⟩
      · rw [ihf1, List.getLast_cons hr]
      · rw [ihf2, hmeta, hf2]

/-- Witness for C8: merging two summary updates in a row leaves exactly one
summary entry — the latest — and the technical entry untouched. -/
theorem merge_metadata_replaces_kind_witness :
    countKind
        ([c8Failed, c8Again].foldl
          (fun acc u => mergeSnapshotUpdate acc "Fixture" (metaOnlyUpdate u) 5)
          c8Snap).sectionMetadata "summary" = 1 ∧
      ([c8Failed, c8Again].foldl
          (fun acc u => mergeSnapshotUpdate acc "Fixture" (metaOnlyUpdate u) 5)
          c8Snap).sectionMetadata.filter (fun e => e.kind = "summary")
        = [c8Again] ∧
      ([c8Failed, c8Again].foldl
          (fun acc u => mergeSnapshotUpdate acc "Fixture" (metaOnlyUpdate u) 5)
          c8Snap).sectionMetadata.filter (fun e => ¬(e.kind = "summary"))
        = c8Snap.sectionMetadata.filter (fun e => ¬(e.kind = "summary")) :=
  merge_metadata_replaces_kind c8Snap "Fixture" 5 "summary" [c8Failed, c8Again]
    (by decide) (by decide) (by decide) (by decide)

/-- C9 counterexample.  On a missing log file, both read operations return
the not-exist error to their caller instead of an empty result. -/
theorem load_missing_surfaces_error :
    loadNotes FileState.missing = Except.error StoreError.notExist ∧
      loadConversationSnapshots FileState.missing
        = Except.error StoreError.notExist ∧
      loadNotes FileState.missing ≠ Except.ok [] ∧
      loadConversationSnapshots FileState.missing ≠ Except.ok [] :=
  ⟨rfl, rfl, fun h => Except.noConfusion h, fun h => Except.noConfusion h⟩

/-- C9 as amended.  `Load` and `LoadConversationSnapshots` surface the
missing-file error (wrapping not-exist) to their caller; it is the callers
— the ensure job, the append paths — that each treat that error as an
empty log and proceed; a corrupt file is an error on every read. -/
theorem missing_file_empty_only_in_callers (path pid title : String)
    (now : Nat) (u : BriefSectionMetadata) (hpath : path ≠ "")
    (hpid : pid ≠ "") :
    loadNotes FileState.missing = Except.error StoreError.notExist ∧
      loadConversationSnapshots FileState.missing
        = Except.error StoreError.notExist ∧
      loadNotes FileState.corrupt = Except.error StoreError.decodeFailure ∧
      loadConversationSnapshots FileState.corrupt
        = Except.error StoreError.decodeFailure ∧
      ensureConversationSnapshot path pid title now FileState.missing =
        FileState.stored [LogEntry.conv { newConvSnapshot pid title now with
          entryType := "conversation" }] ∧
      appendConversationSnapshot path pid title (metaOnlyUpdate u) now
          FileState.missing =
        FileState.stored [LogEntry.conv
          (newSnapshotFromUpdate pid title (metaOnlyUpdate u) now)] ∧
      appendEntries FileState.missing [LogEntry.conv (newConvSnapshot pid title now)] =
        FileState.stored [LogEntry.conv (newConvSnapshot pid title now)] := by
  have hguard : ¬(path = "" ∨ pid = "") := by push_neg; exact ⟨hpath, hpid⟩
  refine ⟨rfl, rfl, rfl, rfl, ?_, ?_, ?_⟩
  · unfold ensureConversationSnapshot loadConversationSnapshots loadEntries
      saveConversationSnapshots appendEntries
    rw [if_neg hguard]
    simp
  · unfold appendConversationSnapshot loadEntries
    rw [if_neg hguard]
    simp [metaOnlyUpdate]
  · unfold appendEntries
    simp

/-- Witness for the amended C9 at concrete path, id and update. -/
theorem missing_file_empty_only_in_callers_witness :
    loadNotes FileState.missing = Except.error StoreError.notExist ∧
      loadConversationSnapshots FileState.missing
        = Except.error StoreError.notExist ∧
      loadNotes FileState.corrupt = Except.error StoreError.decodeFailure ∧
      loadConversationSnapshots FileState.corrupt
        = Except.error StoreError.decodeFailure ∧
      ensureConversationSnapshot "kb.json" "1234.56789" "Fixture" 3
          FileState.missing =
        FileState.stored [LogEntry.conv { newConvSnapshot "1234.56789" "Fixture" 3 with
          entryType := "conversation" }] ∧
      appendConversationSnapshot "kb.json" "1234.56789" "Fixture"
          (metaOnlyUpdate c8Failed) 3 FileState.missing =
        FileState.stored [LogEntry.conv
          (newSnapshotFromUpdate "1234.56789" "Fixture" (metaOnlyUpdate c8Failed) 3)] ∧
      appendEntries FileState.missing
          [LogEntry.conv (newConvSnapshot "1234.56789" "Fixture" 3)] =
        FileState.stored [LogEntry.conv (newConvSnapshot "1234.56789" "Fixture" 3)] :=
  missing_file_empty_only_in_callers "kb.json" "1234.56789" "Fixture" 3
    c8Failed (by decide) (by decide)
